import Mathlib

/-!
Verification of the nvblox_ros1 sensor-ingestion and queue-processing core.

The repository ships the class declaration `NvbloxNode` in
`include/nvblox_ros/nvblox_node.hpp`; the bodies of the templated queue
helpers live in `include/nvblox_ros/impl/nvblox_node_impl.hpp`, which is not
part of the provided sources.  Following the specification, the missing
bodies are modelled here as executable Lean functions; timestamps are modelled
as rational numbers (the code uses ros::Time), the volumetric map and the
sensor payloads are opaque type parameters, and the external fusion engine is
a function `map -> payload -> Option map` (`none` models a fusion failure).
-/

namespace NvbloxRos

/-- A timestamped sensor sample: an opaque payload (image+camera-info pair or
point cloud in the code), its header timestamp, and its source frame id. -/
structure Sample (α : Type) where
  payload : α
  timestamp : ℚ
  source_frame_id : String
deriving DecidableEq, Repr

/-- Modelled from the spec: the body of
`NvbloxNode::limitQueueSizeByDeletingOldestMessages` (declared at
nvblox_node.hpp:169-172) is in the absent impl header.  Per spec section 4.1 it
pops the front (oldest) element while the queue holds more than
`max_num_messages` elements.  The queue is a list with the oldest element at
the head. -/
def limitQueueSizeByDeletingOldestMessages (max_num_messages : Nat) :
    List α → List α
  | [] => []
  | x :: t =>
    if t.length + 1 ≤ max_num_messages then x :: t
    else limitQueueSizeByDeletingOldestMessages max_num_messages t

/-- Modelled from the spec: the body of `NvbloxNode::pushMessageOntoQueue`
(declared at nvblox_node.hpp:138-141) is in the absent impl header.  Per spec
section 4.1, `push(sample)` appends to the back and evicts from the front
until the length is at most `max_num_messages`. -/
def pushMessageOntoQueue (max_num_messages : Nat) (q : List α) (message : α) :
    List α :=
  limitQueueSizeByDeletingOldestMessages max_num_messages (q ++ [message])

/-- Pushing a whole sequence of messages, oldest first, onto an initially
empty queue. -/
def pushAllMessages (max_num_messages : Nat) (ms : List α) : List α :=
  ms.foldl (pushMessageOntoQueue max_num_messages) []

/-- Modelled from the spec: the body of `NvbloxNode::isUpdateTooFrequent`
(declared at nvblox_node.hpp:165-167) is in the absent impl header.  Per spec
section 4.3, the rate limiter asks to skip exactly when the interval between
the current stamp and the last update stamp is below `1 / max_update_rate_hz`. -/
def isUpdateTooFrequent (current_stamp last_update_stamp : ℚ)
    (max_update_rate_hz : ℚ) : Bool :=
  decide (current_stamp - last_update_stamp < 1 / max_update_rate_hz)

/-- The observable outcome of one drain pass over a stream queue: the
remaining queue, the stream's last-update timestamp, the resulting map state,
and the trace of samples that were passed to the fusion callback, in
invocation order. -/
structure DrainResult (α μ : Type) where
  queue : List (Sample α)
  last_update_time : ℚ
  map : μ
  fused : List (Sample α)
deriving DecidableEq, Repr

/-- Records one more fusion invocation (for the sample that was at the front
of the queue) in front of a drain result's trace. -/
def DrainResult.consFused (s : Sample α) (r : DrainResult α μ) :
    DrainResult α μ :=
  ⟨r.queue, r.last_update_time, r.map, s :: r.fused⟩

/-- Modelled from the spec: the body of `NvbloxNode::processMessageQueue`
(declared at nvblox_node.hpp:158-162) is in the absent impl header.  Per spec
section 4.4, one drain pass walks the queue oldest-first: it stops at the
first sample whose readiness check fails (retaining it and everything behind
it); a ready but rate-limited sample is popped without invoking fusion; a
ready, non-rate-limited sample is passed to the fusion callback — on success
the last-update timestamp advances to the sample's stamp, on failure the
sample is dropped and the loop continues.  The fusion callback returns the
new map on success and `none` on failure. -/
def processMessageQueue (message_ready_check : String → ℚ → Bool)
    (callback : μ → α → Option μ) (max_update_rate_hz : ℚ) :
    List (Sample α) → ℚ → μ → DrainResult α μ
  | [], last_update_time, map => ⟨[], last_update_time, map, []⟩
  | s :: rest, last_update_time, map =>
    if message_ready_check s.source_frame_id s.timestamp then
      if isUpdateTooFrequent s.timestamp last_update_time max_update_rate_hz then
        processMessageQueue message_ready_check callback max_update_rate_hz
          rest last_update_time map
      else
        match callback map s.payload with
        | some map2 =>
          DrainResult.consFused s
            (processMessageQueue message_ready_check callback max_update_rate_hz
              rest s.timestamp map2)
        | none =>
          DrainResult.consFused s
            (processMessageQueue message_ready_check callback max_update_rate_hz
              rest last_update_time map)
    else ⟨s :: rest, last_update_time, map, []⟩

/-- One periodic trigger acting on the bare (queue, last-update, map) state of
a single stream: drain the queue once. -/
def on_trigger (message_ready_check : String → ℚ → Bool)
    (callback : μ → α → Option μ) (max_update_rate_hz : ℚ)
    (st : List (Sample α) × ℚ × μ) : List (Sample α) × ℚ × μ :=
  let r := processMessageQueue message_ready_check callback max_update_rate_hz
    st.1 st.2.1 st.2.2
  (r.queue, r.last_update_time, r.map)

/-- Per-stream state: the message queue, the last-update timestamp
(`last_depth_update_time_` etc., nvblox_node.hpp:322-324), the queue capacity
(`maximum_sensor_message_queue_length_`, nvblox_node.hpp:298) and the maximum
update rate (`max_depth_update_hz_` etc., nvblox_node.hpp:284-286). -/
structure StreamState (α : Type) where
  queue : List (Sample α)
  last_update_time : ℚ
  maximum_sensor_message_queue_length : Nat
  max_update_rate_hz : ℚ

/-- The three sensor modalities of the node, each with its own queue, mutex
and timer (nvblox_node.hpp:330-343). -/
inductive StreamId where
  | depth
  | color
  | pointcloud
deriving DecidableEq, Repr

/-- The multi-stream coordinator state: one `StreamState` per modality plus
the shared volumetric map. -/
structure NodeState (α μ : Type) where
  streams : StreamId → StreamState α
  map : μ

/-- A sensor callback pushing one sample onto the queue of stream `i`
(depthImageCallback / colorImageCallback / pointcloudCallback route here). -/
def pushTo (i : StreamId) (s : Sample α) (st : NodeState α μ) : NodeState α μ :=
  { st with
    streams := fun j =>
      if j = i then
        { st.streams i with
          queue := pushMessageOntoQueue
            (st.streams i).maximum_sensor_message_queue_length
            (st.streams i).queue s }
      else st.streams j }

/-- One processing-timer trigger for stream `i`: drain its queue against the
shared map, writing back the remaining queue, the advanced last-update
timestamp and the mutated map. -/
def processQueueOf (message_ready_check : String → ℚ → Bool)
    (callback : μ → α → Option μ) (i : StreamId) (st : NodeState α μ) :
    NodeState α μ :=
  let str := st.streams i
  let r := processMessageQueue message_ready_check callback
    str.max_update_rate_hz str.queue str.last_update_time st.map
  { streams := fun j =>
      if j = i then
        { queue := r.queue
          last_update_time := r.last_update_time
          maximum_sensor_message_queue_length :=
            str.maximum_sensor_message_queue_length
          max_update_rate_hz := str.max_update_rate_hz }
      else st.streams j
    map := r.map }

/-- `NvbloxNode::processDepthQueue` (nvblox_node.hpp:101): periodic trigger
draining the depth stream. -/
def processDepthQueue (message_ready_check : String → ℚ → Bool)
    (callback : μ → α → Option μ) (st : NodeState α μ) : NodeState α μ :=
  processQueueOf message_ready_check callback StreamId.depth st

/-- `NvbloxNode::processColorQueue` (nvblox_node.hpp:102): periodic trigger
draining the color stream. -/
def processColorQueue (message_ready_check : String → ℚ → Bool)
    (callback : μ → α → Option μ) (st : NodeState α μ) : NodeState α μ :=
  processQueueOf message_ready_check callback StreamId.color st

/-- `NvbloxNode::processPointcloudQueue` (nvblox_node.hpp:103): periodic
trigger draining the lidar pointcloud stream. -/
def processPointcloudQueue (message_ready_check : String → ℚ → Bool)
    (callback : μ → α → Option μ) (st : NodeState α μ) : NodeState α μ :=
  processQueueOf message_ready_check callback StreamId.pointcloud st

/-- Modelled from the spec: section 4.5's maintenance operation
`clear_stream(stream_id)` — no body exists in the provided sources.  It
empties the stream's queue and resets its last-update timestamp to the epoch
(`ros::Time()`, i.e. 0). -/
def clear_stream (i : StreamId) (st : NodeState α μ) : NodeState α μ :=
  { st with
    streams := fun j =>
      if j = i then
        { st.streams i with queue := [], last_update_time := 0 }
      else st.streams j }

/-- An externally observable event acting on the coordinator: a sensor
callback pushing a sample onto one stream, or a processing-timer trigger
draining one stream. -/
inductive StreamOp (α : Type) where
  | push (i : StreamId) (s : Sample α)
  | trigger (i : StreamId)

/-- Interpretation of one event on the coordinator state. -/
def runOp (message_ready_check : String → ℚ → Bool)
    (callback : μ → α → Option μ) :
    NodeState α μ → StreamOp α → NodeState α μ
  | st, StreamOp.push i s => pushTo i s st
  | st, StreamOp.trigger i => processQueueOf message_ready_check callback i st

/-- Running a whole sequence of push and trigger events. -/
def runOps (message_ready_check : String → ℚ → Bool)
    (callback : μ → α → Option μ) (st : NodeState α μ)
    (ops : List (StreamOp α)) : NodeState α μ :=
  ops.foldl (runOp message_ready_check callback) st

/-- Modelled from the spec: the body of
`NvbloxNode::clearMapOutsideOfRadiusOfLastKnownPose` (declared at
nvblox_node.hpp:131) is in the absent implementation file.  Per the header
comment on `map_clearing_radius_m_` (nvblox_node.hpp:301), values ≤ 0.0
indicate that no clearing is performed; otherwise the radius-based clearing
(opaque here) runs on the map. -/
def clearMapOutsideOfRadiusOfLastKnownPose (map_clearing_radius_m : ℚ)
    (clear_outside_radius : μ → μ) (map : μ) : μ :=
  if map_clearing_radius_m ≤ 0 then map else clear_outside_radius map

/-- Default of `map_clearing_radius_m_` (nvblox_node.hpp:302): -1.0. -/
def map_clearing_radius_m_default : ℚ := -1

/-- A raw message of one kind (image or camera info) carrying its header
timestamp, before pairing. -/
structure Msg (γ : Type) where
  payload : γ
  timestamp : ℚ
deriving DecidableEq, Repr

/-- Modelled from the spec: the synchronizer state of the pair joiner
(`message_filters::sync_policies::ExactTime` instantiated at
nvblox_node.hpp:189-191; its implementation is external to the repository).
Per spec section 4.6 it buffers at most one pending unmatched message per
kind per stream. -/
structure PendingPair (α β : Type) where
  pending_image : Option (Msg α)
  pending_camera_info : Option (Msg β)
deriving DecidableEq, Repr

/-- Modelled from the spec: offering an image message to the pair joiner.
If a camera-info message with an equal timestamp is buffered, a combined
sample is emitted and both buffers are cleared; otherwise the image replaces
any previously buffered image (newest wins, at most one pending per kind). -/
def offerImage (j : PendingPair α β) (m : Msg α) :
    PendingPair α β × Option (Msg (α × β)) :=
  match j.pending_camera_info with
  | some c =>
    if m.timestamp = c.timestamp then
      (⟨none, none⟩, some ⟨(m.payload, c.payload), m.timestamp⟩)
    else (⟨some m, some c⟩, none)
  | none => (⟨some m, none⟩, none)

/-- Modelled from the spec: offering a camera-info message to the pair
joiner, symmetric to `offerImage`. -/
def offerCameraInfo (j : PendingPair α β) (c : Msg β) :
    PendingPair α β × Option (Msg (α × β)) :=
  match j.pending_image with
  | some m =>
    if m.timestamp = c.timestamp then
      (⟨none, none⟩, some ⟨(m.payload, c.payload), m.timestamp⟩)
    else (⟨some m, some c⟩, none)
  | none => (⟨none, some c⟩, none)

theorem limitQueueSize_eq_drop (m : Nat) (q : List α) :
    limitQueueSizeByDeletingOldestMessages m q = q.drop (q.length - m) := by
  induction q with
  | nil => simp [limitQueueSizeByDeletingOldestMessages]
  | cons x t ih =>
    by_cases h : t.length + 1 ≤ m
    · have h0 : (x :: t).length - m = 0 := by simp only [List.length_cons]; omega
      rw [h0, limitQueueSizeByDeletingOldestMessages, if_pos h, List.drop_zero]
    · have h1 : (x :: t).length - m = (t.length - m) + 1 := by
        simp only [List.length_cons]; omega
      rw [limitQueueSizeByDeletingOldestMessages, if_neg h, ih, h1, List.drop_succ_cons]

theorem pushMessage_eq_drop (m : Nat) (q : List α) (a : α) :
    pushMessageOntoQueue m q a = (q ++ [a]).drop ((q ++ [a]).length - m) := by
  rw [pushMessageOntoQueue, limitQueueSize_eq_drop]

theorem pushMessage_length_le (m : Nat) (q : List α) (a : α) :
    (pushMessageOntoQueue m q a).length ≤ m := by
  rw [pushMessage_eq_drop, List.length_drop]
  omega

theorem foldl_push_eq_drop (m : Nat) (ms : List α) :
    ∀ q : List α, q.length ≤ m →
      ms.foldl (pushMessageOntoQueue m) q = (q ++ ms).drop ((q ++ ms).length - m) := by
  induction ms with
  | nil =>
    intro q hq
    have h0 : q.length - m = 0 := by omega
    simp [h0]
  | cons a ms ih =>
    intro q hq
    rw [List.foldl_cons, ih (pushMessageOntoQueue m q a) (pushMessage_length_le m q a)]
    rw [pushMessage_eq_drop]
    have hj : (q ++ [a]).length - m ≤ (q ++ [a]).length := Nat.sub_le _ _
    rw [← List.drop_append_of_le_length hj, List.drop_drop]
    have he : (q ++ [a]) ++ ms = q ++ a :: ms := by simp
    rw [he]
    congr 1
    simp only [List.length_drop, List.length_append, List.length_cons,
      List.length_singleton, List.length_nil]
    omega

/-- Claim C1: for every sequence of pushes onto an initially empty stream
queue, after any push the queue length equals
min(number of samples pushed so far, max_queue_length), and the retained
elements are exactly the most recently pushed samples in arrival order (the
suffix of the pushed sequence), i.e. the oldest are evicted first on
overflow. -/
theorem pushAllMessages_bounded_fifo (m : Nat) (ms : List (Sample α)) :
    (pushAllMessages m ms).length = min ms.length m ∧
    pushAllMessages m ms = ms.drop (ms.length - m) := by
  have h := foldl_push_eq_drop m ms [] (by simp)
  simp only [List.nil_append] at h
  rw [pushAllMessages, h]
  constructor
  · rw [List.length_drop]
    omega
  · rfl

/-- Claim C2: if the readiness check rejects the front sample, the drain pass
stops immediately — the queue, last-update timestamp and map are returned
unchanged and no sample is passed to fusion — and consequently any number of
repeated triggers leaves the state unchanged and processes no later sample,
regardless of the later samples' own readiness, while the front sample stays
not ready. -/
theorem processMessageQueue_head_of_line_blocking
    (message_ready_check : String → ℚ → Bool) (callback : μ → α → Option μ)
    (max_update_rate_hz : ℚ) (s : Sample α) (rest : List (Sample α))
    (last : ℚ) (map : μ)
    (h : message_ready_check s.source_frame_id s.timestamp = false) :
    processMessageQueue message_ready_check callback max_update_rate_hz
        (s :: rest) last map = ⟨s :: rest, last, map, []⟩ ∧
    ∀ n : Nat,
      (on_trigger message_ready_check callback max_update_rate_hz)^[n]
          (s :: rest, last, map) = (s :: rest, last, map) := by
  have h1 : processMessageQueue message_ready_check callback max_update_rate_hz
      (s :: rest) last map = ⟨s :: rest, last, map, []⟩ := by
    rw [processMessageQueue, if_neg (by simp [h])]
  refine ⟨h1, fun n => Function.iterate_fixed ?_ n⟩
  simp only [on_trigger, h1]

/-- Concrete instance of head-of-line blocking: one never-ready sample blocks
the queue across iterated triggers. -/
theorem processMessageQueue_head_of_line_blocking_witness :
    (processMessageQueue (fun _ _ => false) (fun (m p : Nat) => some (m + p)) 10
        [(⟨5, 0, "cam"⟩ : Sample Nat)] 0 0 = ⟨[⟨5, 0, "cam"⟩], 0, 0, []⟩ ∧
      ∀ n : Nat,
        (on_trigger (fun _ _ => false) (fun (m p : Nat) => some (m + p)) 10)^[n]
            ([(⟨5, 0, "cam"⟩ : Sample Nat)], 0, 0) = ([⟨5, 0, "cam"⟩], 0, 0)) :=
  processMessageQueue_head_of_line_blocking
    (fun _ _ => false) (fun (m p : Nat) => some (m + p)) 10 ⟨5, 0, "cam"⟩ [] 0 0 rfl

theorem processMessageQueue_skip_step (message_ready_check : String → ℚ → Bool)
    (callback : μ → α → Option μ) (max_update_rate_hz : ℚ) (s : Sample α)
    (rest : List (Sample α)) (last : ℚ) (map : μ)
    (hr : message_ready_check s.source_frame_id s.timestamp = true)
    (hf : isUpdateTooFrequent s.timestamp last max_update_rate_hz = true) :
    processMessageQueue message_ready_check callback max_update_rate_hz
        (s :: rest) last map =
      processMessageQueue message_ready_check callback max_update_rate_hz
        rest last map := by
  rw [processMessageQueue, if_pos (by simp [hr]), if_pos (by simp [hf])]

theorem processMessageQueue_fuse_success_step
    (message_ready_check : String → ℚ → Bool) (callback : μ → α → Option μ)
    (max_update_rate_hz : ℚ) (s : Sample α) (rest : List (Sample α))
    (last : ℚ) (map map2 : μ)
    (hr : message_ready_check s.source_frame_id s.timestamp = true)
    (hf : isUpdateTooFrequent s.timestamp last max_update_rate_hz = false)
    (hcb : callback map s.payload = some map2) :
    processMessageQueue message_ready_check callback max_update_rate_hz
        (s :: rest) last map =
      DrainResult.consFused s
        (processMessageQueue message_ready_check callback max_update_rate_hz
          rest s.timestamp map2) := by
  rw [processMessageQueue, if_pos (by simp [hr]), if_neg (by simp [hf]), hcb]

theorem processMessageQueue_fuse_failure_step
    (message_ready_check : String → ℚ → Bool) (callback : μ → α → Option μ)
    (max_update_rate_hz : ℚ) (s : Sample α) (rest : List (Sample α))
    (last : ℚ) (map : μ)
    (hr : message_ready_check s.source_frame_id s.timestamp = true)
    (hf : isUpdateTooFrequent s.timestamp last max_update_rate_hz = false)
    (hcb : callback map s.payload = none) :
    processMessageQueue message_ready_check callback max_update_rate_hz
        (s :: rest) last map =
      DrainResult.consFused s
        (processMessageQueue message_ready_check callback max_update_rate_hz
          rest last map) := by
  rw [processMessageQueue, if_pos (by simp [hr]), if_neg (by simp [hf]), hcb]

/-- Claim C3: within one stream, the order of fusion invocations equals
arrival order.  The trace of samples passed to fusion during one drain pass
is a sublist of the queue (so if A precedes B in the queue and both are
fused, A is fused before B, with no reordering), and moreover the remaining
queue is a suffix `q.drop k` of the input while every fused sample comes from
the consumed prefix `q.take k` — so samples fused by later triggers also come
after those fused now. -/
theorem processMessageQueue_fifo_order (message_ready_check : String → ℚ → Bool)
    (callback : μ → α → Option μ) (max_update_rate_hz : ℚ)
    (q : List (Sample α)) (last : ℚ) (map : μ) :
    List.Sublist
      (processMessageQueue message_ready_check callback max_update_rate_hz
        q last map).fused q ∧
    ∃ k, (processMessageQueue message_ready_check callback max_update_rate_hz
            q last map).queue = q.drop k ∧
      List.Sublist
        (processMessageQueue message_ready_check callback max_update_rate_hz
          q last map).fused (q.take k) := by
  induction q generalizing last map with
  | nil =>
    exact ⟨List.nil_sublist _, 0, rfl, List.nil_sublist _⟩
  | cons s rest ih =>
    by_cases hr : message_ready_check s.source_frame_id s.timestamp = true
    · by_cases hf : isUpdateTooFrequent s.timestamp last max_update_rate_hz = true
      · rw [processMessageQueue_skip_step _ _ _ _ _ _ _ hr hf]
        obtain ⟨hs, k, hq, ht⟩ := ih last map
        refine ⟨hs.cons s, k + 1, ?_, ?_⟩
        · rw [List.drop_succ_cons, hq]
        · rw [List.take_succ_cons]
          exact ht.cons s
      · rw [Bool.not_eq_true] at hf
        cases hcb : callback map s.payload with
        | some map2 =>
          rw [processMessageQueue_fuse_success_step _ _ _ _ _ _ _ _ hr hf hcb]
          obtain ⟨hs, k, hq, ht⟩ := ih s.timestamp map2
          refine ⟨?_, k + 1, ?_, ?_⟩
          · exact (hs.cons₂ s)
          · rw [List.drop_succ_cons, DrainResult.consFused, hq]
          · rw [List.take_succ_cons, DrainResult.consFused]
            exact ht.cons₂ s
        | none =>
          rw [processMessageQueue_fuse_failure_step _ _ _ _ _ _ _ hr hf hcb]
          obtain ⟨hs, k, hq, ht⟩ := ih last map
          refine ⟨?_, k + 1, ?_, ?_⟩
          · exact (hs.cons₂ s)
          · rw [List.drop_succ_cons, DrainResult.consFused, hq]
          · rw [List.take_succ_cons, DrainResult.consFused]
            exact ht.cons₂ s
    · rw [Bool.not_eq_true] at hr
      rw [processMessageQueue, if_neg (by simp [hr])]
      exact ⟨List.nil_sublist _, 0, rfl, List.nil_sublist _⟩

/-- Claim C4: the rate limiter returns true exactly when
`current - last < 1 / max_update_rate_hz`; a ready front sample for which it
returns true is popped from the queue with fusion never invoked for it; and
in the concrete scenario of rate 10 Hz with ready samples at t = 0, 0.05 and
0.2 s the fusion callback is invoked exactly for t = 0 and t = 0.2. -/
theorem isUpdateTooFrequent_rate_limiting :
    (∀ current last rate : ℚ,
      isUpdateTooFrequent current last rate =
        decide (current - last < 1 / rate)) ∧
    (∀ {α μ : Type} (message_ready_check : String → ℚ → Bool)
       (callback : μ → α → Option μ) (rate : ℚ) (s : Sample α)
       (rest : List (Sample α)) (last : ℚ) (map : μ),
       message_ready_check s.source_frame_id s.timestamp = true →
       isUpdateTooFrequent s.timestamp last rate = true →
       processMessageQueue message_ready_check callback rate (s :: rest)
           last map =
         processMessageQueue message_ready_check callback rate rest
           last map) ∧
    processMessageQueue (fun _ _ => true) (fun (n : Nat) (_ : Unit) => some (n + 1))
        10 [⟨(), 0, "cam"⟩, ⟨(), 1/20, "cam"⟩, ⟨(), 1/5, "cam"⟩] (-1) 0 =
      ⟨[], 1/5, 2, [⟨(), 0, "cam"⟩, ⟨(), 1/5, "cam"⟩]⟩ := by
  refine ⟨fun _ _ _ => rfl, ?_, ?_⟩
  · intro α μ message_ready_check callback rate s rest last map hr hf
    exact processMessageQueue_skip_step message_ready_check callback rate
      s rest last map hr hf
  · have h0 : isUpdateTooFrequent 0 (-1) 10 = false := by
      simp only [isUpdateTooFrequent, decide_eq_false_iff_not, not_lt]
      norm_num
    have h1 : isUpdateTooFrequent (20⁻¹ : ℚ) 0 10 = true := by
      simp only [isUpdateTooFrequent, decide_eq_true_eq]
      norm_num
    have h2 : isUpdateTooFrequent (5⁻¹ : ℚ) 0 10 = false := by
      simp only [isUpdateTooFrequent, decide_eq_false_iff_not, not_lt]
      norm_num
    simp [processMessageQueue, h0, h1, h2, DrainResult.consFused]

/-- Concrete instance of the skip behavior: a ready but rate-limited front
sample is popped and the drain continues as if it were absent. -/
theorem isUpdateTooFrequent_rate_limiting_witness :
    processMessageQueue (fun _ _ => true) (fun (n : Nat) (_ : Unit) => some (n + 1))
        10 [(⟨(), 0, "cam"⟩ : Sample Unit)] 0 0 =
      processMessageQueue (fun _ _ => true) (fun (n : Nat) (_ : Unit) => some (n + 1))
        10 [] 0 0 :=
  isUpdateTooFrequent_rate_limiting.2.1 (fun _ _ => true)
    (fun (n : Nat) (_ : Unit) => some (n + 1)) 10 ⟨(), 0, "cam"⟩ [] 0 0
    rfl (by simp only [isUpdateTooFrequent, decide_eq_true_eq]; norm_num)

theorem processMessageQueue_last_update_monotone
    (message_ready_check : String → ℚ → Bool) (callback : μ → α → Option μ)
    (rate : ℚ) (hrate : 0 < rate) (q : List (Sample α)) :
    ∀ (last : ℚ) (map : μ),
      last ≤ (processMessageQueue message_ready_check callback rate
        q last map).last_update_time := by
  induction q with
  | nil => intro last map; exact le_refl _
  | cons s rest ih =>
    intro last map
    by_cases hr : message_ready_check s.source_frame_id s.timestamp = true
    · by_cases hf : isUpdateTooFrequent s.timestamp last rate = true
      · rw [processMessageQueue_skip_step _ _ _ _ _ _ _ hr hf]
        exact ih last map
      · rw [Bool.not_eq_true] at hf
        have hts : last ≤ s.timestamp := by
          have h1 : ¬ (s.timestamp - last < 1 / rate) := by
            simpa [isUpdateTooFrequent] using hf
          have h2 : (0:ℚ) < 1 / rate := by positivity
          linarith [not_lt.mp h1]
        cases hcb : callback map s.payload with
        | some map2 =>
          rw [processMessageQueue_fuse_success_step _ _ _ _ _ _ _ _ hr hf hcb]
          exact le_trans hts (ih s.timestamp map2)
        | none =>
          rw [processMessageQueue_fuse_failure_step _ _ _ _ _ _ _ hr hf hcb]
          exact ih last map
    · rw [Bool.not_eq_true] at hr
      rw [processMessageQueue, if_neg (by simp [hr])]

theorem runOp_preserves_config (message_ready_check : String → ℚ → Bool)
    (callback : μ → α → Option μ) (st : NodeState α μ) (op : StreamOp α)
    (j : StreamId) :
    ((runOp message_ready_check callback st op).streams j).max_update_rate_hz =
      (st.streams j).max_update_rate_hz := by
  cases op with
  | push i s =>
    by_cases hj : j = i
    · subst hj; simp [runOp, pushTo]
    · simp [runOp, pushTo, hj]
  | trigger i =>
    by_cases hj : j = i
    · subst hj; simp [runOp, processQueueOf]
    · simp [runOp, processQueueOf, hj]

theorem runOp_last_update_monotone (message_ready_check : String → ℚ → Bool)
    (callback : μ → α → Option μ) (st : NodeState α μ) (op : StreamOp α)
    (j : StreamId) (h : 0 < (st.streams j).max_update_rate_hz) :
    (st.streams j).last_update_time ≤
      ((runOp message_ready_check callback st op).streams j).last_update_time := by
  cases op with
  | push i s =>
    by_cases hj : j = i
    · subst hj; simp [runOp, pushTo]
    · simp [runOp, pushTo, hj]
  | trigger i =>
    by_cases hj : j = i
    · subst hj
      simp only [runOp, processQueueOf, if_pos rfl]
      exact processMessageQueue_last_update_monotone _ _ _ h _ _ _
    · simp [runOp, processQueueOf, hj]

/-- Claim C5: per stream, the last-processed timestamp is monotonically
non-decreasing across any sequence of pushes and processing triggers
(provided the stream's configured maximum update rate is positive, as all the
configured defaults are): no push or trigger ever decreases it. -/
theorem last_update_time_monotone (message_ready_check : String → ℚ → Bool)
    (callback : μ → α → Option μ) (ops : List (StreamOp α)) :
    ∀ st : NodeState α μ,
      (∀ i, 0 < (st.streams i).max_update_rate_hz) → ∀ j,
      (st.streams j).last_update_time ≤
        ((runOps message_ready_check callback st ops).streams j).last_update_time := by
  induction ops with
  | nil => intro st h j; exact le_refl _
  | cons op ops ih =>
    intro st h j
    have hpres : ∀ i,
        0 < ((runOp message_ready_check callback st op).streams i).max_update_rate_hz := by
      intro i; rw [runOp_preserves_config]; exact h i
    exact le_trans
      (runOp_last_update_monotone message_ready_check callback st op j (h j))
      (ih (runOp message_ready_check callback st op) hpres j)

/-- Concrete instance of timestamp monotonicity over a push followed by a
trigger. -/
theorem last_update_time_monotone_witness :
    (((⟨fun _ => ⟨[], 0, 10, 10⟩, 0⟩ : NodeState Nat Nat)).streams
        StreamId.depth).last_update_time ≤
      ((runOps (fun _ _ => true) (fun (n p : Nat) => some (n + p))
          (⟨fun _ => ⟨[], 0, 10, 10⟩, 0⟩ : NodeState Nat Nat)
          [StreamOp.push StreamId.depth ⟨1, 1, "cam"⟩,
            StreamOp.trigger StreamId.depth]).streams
        StreamId.depth).last_update_time :=
  last_update_time_monotone (fun _ _ => true) (fun (n p : Nat) => some (n + p))
    [StreamOp.push StreamId.depth ⟨1, 1, "cam"⟩,
      StreamOp.trigger StreamId.depth]
    (⟨fun _ => ⟨[], 0, 10, 10⟩, 0⟩ : NodeState Nat Nat)
    (fun _ => show (0:ℚ) < 10 by norm_num) StreamId.depth

/-- Claim C6: a fusion failure on a ready, non-rate-limited front sample is
absorbed locally — the sample is popped and the drain continues with the rest
of the queue in the same trigger (leaving the timestamp and map as the
failure found them), and a trigger of one stream never touches the state of
any other stream. -/
theorem fusion_failure_absorbed (message_ready_check : String → ℚ → Bool)
    (callback : μ → α → Option μ) (rate : ℚ) (s : Sample α)
    (rest : List (Sample α)) (last : ℚ) (map : μ)
    (hr : message_ready_check s.source_frame_id s.timestamp = true)
    (hf : isUpdateTooFrequent s.timestamp last rate = false)
    (hcb : callback map s.payload = none) :
    (processMessageQueue message_ready_check callback rate (s :: rest)
        last map =
      DrainResult.consFused s
        (processMessageQueue message_ready_check callback rate rest
          last map)) ∧
    ∀ (st : NodeState α μ) (i j : StreamId), j ≠ i →
      (processQueueOf message_ready_check callback i st).streams j =
        st.streams j := by
  refine ⟨processMessageQueue_fuse_failure_step _ _ _ _ _ _ _ hr hf hcb, ?_⟩
  intro st i j hj
  simp [processQueueOf, hj]

/-- Concrete instance of fusion-failure absorption: the poisoned sample is
dropped and draining continues. -/
theorem fusion_failure_absorbed_witness :
    processMessageQueue (fun _ _ => true) (fun (_ _ : Nat) => (none : Option Nat))
        10 [(⟨7, 1, "cam"⟩ : Sample Nat)] 0 0 =
      DrainResult.consFused ⟨7, 1, "cam"⟩
        (processMessageQueue (fun _ _ => true)
          (fun (_ _ : Nat) => (none : Option Nat)) 10 [] 0 0) :=
  (fusion_failure_absorbed (fun _ _ => true) (fun (_ _ : Nat) => none) 10
    ⟨7, 1, "cam"⟩ [] 0 0 rfl
    (by simp only [isUpdateTooFrequent, decide_eq_false_iff_not, not_lt]; norm_num)
    rfl).1

/-- Claim C7: the pair joiner keeps at most one pending unmatched message per
kind (on a non-emitting offer, the newly arrived message replaces the
buffered one of its kind and the other kind's buffer is untouched), and it
emits a combined sample exactly when the offered message and its buffered
counterpart carry an equal timestamp, clearing both buffers on emission. -/
theorem offer_pairing (j : PendingPair α β) (m : Msg α) (c : Msg β) :
    ((offerImage j m).2 ≠ none ↔
      ∃ ci, j.pending_camera_info = some ci ∧ m.timestamp = ci.timestamp) ∧
    ((offerImage j m).2 = none →
      (offerImage j m).1.pending_image = some m ∧
      (offerImage j m).1.pending_camera_info = j.pending_camera_info) ∧
    (∀ out, (offerImage j m).2 = some out →
      (offerImage j m).1 = ⟨none, none⟩ ∧
      ∃ ci, j.pending_camera_info = some ci ∧
        out = ⟨(m.payload, ci.payload), m.timestamp⟩) ∧
    ((offerCameraInfo j c).2 ≠ none ↔
      ∃ mi, j.pending_image = some mi ∧ mi.timestamp = c.timestamp) ∧
    ((offerCameraInfo j c).2 = none →
      (offerCameraInfo j c).1.pending_camera_info = some c ∧
      (offerCameraInfo j c).1.pending_image = j.pending_image) ∧
    (∀ out, (offerCameraInfo j c).2 = some out →
      (offerCameraInfo j c).1 = ⟨none, none⟩ ∧
      ∃ mi, j.pending_image = some mi ∧
        out = ⟨(mi.payload, c.payload), mi.timestamp⟩) := by
  obtain ⟨pi, pc⟩ := j
  refine ⟨?_, ?_, ?_, ?_, ?_, ?_⟩
  · cases pc with
    | none => simp [offerImage]
    | some ci =>
      by_cases hts : m.timestamp = ci.timestamp <;> simp [offerImage, hts]
  · cases pc with
    | none => simp [offerImage]
    | some ci =>
      by_cases hts : m.timestamp = ci.timestamp <;> simp [offerImage, hts]
  · intro out hout
    cases pc with
    | none => simp [offerImage] at hout
    | some ci =>
      by_cases hts : m.timestamp = ci.timestamp
      · simp only [offerImage, if_pos hts, Option.some.injEq] at hout ⊢
        exact ⟨trivial, ci, rfl, hout.symm⟩
      · simp [offerImage, hts] at hout
  · cases pi with
    | none => simp [offerCameraInfo]
    | some mi =>
      by_cases hts : mi.timestamp = c.timestamp <;> simp [offerCameraInfo, hts]
  · cases pi with
    | none => simp [offerCameraInfo]
    | some mi =>
      by_cases hts : mi.timestamp = c.timestamp <;> simp [offerCameraInfo, hts]
  · intro out hout
    cases pi with
    | none => simp [offerCameraInfo] at hout
    | some mi =>
      by_cases hts : mi.timestamp = c.timestamp
      · simp only [offerCameraInfo, if_pos hts, Option.some.injEq] at hout ⊢
        exact ⟨trivial, mi, rfl, hout.symm⟩
      · simp [offerCameraInfo, hts] at hout

/-- Concrete instance of the replacement rule: an image offered with no
matching camera info is buffered as the single pending image. -/
theorem offer_pairing_witness :
    (offerImage (⟨none, none⟩ : PendingPair Nat Nat) ⟨5, 3⟩).1.pending_image =
        some ⟨5, 3⟩ ∧
    (offerImage (⟨none, none⟩ : PendingPair Nat Nat) ⟨5, 3⟩).1.pending_camera_info =
        (⟨none, none⟩ : PendingPair Nat Nat).pending_camera_info :=
  (offer_pairing ⟨none, none⟩ ⟨5, 3⟩ ⟨0, 0⟩).2.1 rfl

/-- Claim C8: after clear_stream(stream_id), the stream's queue is empty and
its last-processed timestamp equals the epoch (0), for every stream id. -/
theorem clear_stream_resets (i : StreamId) (st : NodeState α μ) :
    ((clear_stream i st).streams i).queue = [] ∧
    ((clear_stream i st).streams i).last_update_time = 0 := by
  simp [clear_stream]

theorem processQueueOf_empty_noop (message_ready_check : String → ℚ → Bool)
    (callback : μ → α → Option μ) (i : StreamId) (st : NodeState α μ)
    (h : (st.streams i).queue = []) :
    processQueueOf message_ready_check callback i st = st := by
  have hr : processMessageQueue message_ready_check callback
      (st.streams i).max_update_rate_hz (st.streams i).queue
      (st.streams i).last_update_time st.map =
      ⟨[], (st.streams i).last_update_time, st.map, []⟩ := by
    rw [h]
    rfl
  obtain ⟨streams, map⟩ := st
  simp only [processQueueOf, hr]
  congr 1
  funext k
  by_cases hk : k = i
  · subst hk
    rw [if_pos rfl, ← h]
  · rw [if_neg hk]

/-- Claim C9: a processing trigger (processDepthQueue, processColorQueue or
processPointcloudQueue) invoked while the corresponding queue is empty is a
no-op: queues, last-update timestamps and the map are all unchanged, so
polling faster than the sensor input rate is harmless. -/
theorem processQueue_empty_noop (message_ready_check : String → ℚ → Bool)
    (callback : μ → α → Option μ) (st : NodeState α μ) :
    ((st.streams StreamId.depth).queue = [] →
      processDepthQueue message_ready_check callback st = st) ∧
    ((st.streams StreamId.color).queue = [] →
      processColorQueue message_ready_check callback st = st) ∧
    ((st.streams StreamId.pointcloud).queue = [] →
      processPointcloudQueue message_ready_check callback st = st) :=
  ⟨fun h => processQueueOf_empty_noop _ _ _ _ h,
    fun h => processQueueOf_empty_noop _ _ _ _ h,
    fun h => processQueueOf_empty_noop _ _ _ _ h⟩

/-- Concrete instance: a depth trigger on an empty depth queue changes
nothing. -/
theorem processQueue_empty_noop_witness :
    processDepthQueue (fun _ _ => true) (fun (n p : Nat) => some (n + p))
        (⟨fun _ => ⟨[], 0, 10, 10⟩, 0⟩ : NodeState Nat Nat) =
      (⟨fun _ => ⟨[], 0, 10, 10⟩, 0⟩ : NodeState Nat Nat) :=
  (processQueue_empty_noop (fun _ _ => true) (fun (n p : Nat) => some (n + p))
    (⟨fun _ => ⟨[], 0, 10, 10⟩, 0⟩ : NodeState Nat Nat)).1 rfl

/-- Claim C10: with a non-positive clearing radius — the default
`map_clearing_radius_m_` is -1.0 — every invocation of
clearMapOutsideOfRadiusOfLastKnownPose leaves the map unchanged: radius-based
map clearing is disabled by a non-positive radius. -/
theorem clearMap_noop_for_nonpositive_radius (radius : ℚ)
    (clear_outside_radius : μ → μ) (map : μ) (h : radius ≤ 0) :
    clearMapOutsideOfRadiusOfLastKnownPose radius clear_outside_radius map = map ∧
    map_clearing_radius_m_default ≤ 0 := by
  refine ⟨?_, by norm_num [map_clearing_radius_m_default]⟩
  simp [clearMapOutsideOfRadiusOfLastKnownPose, h]

/-- Concrete instance: with the default radius -1 the clearing call is the
identity on the map. -/
theorem clearMap_noop_for_nonpositive_radius_witness :
    clearMapOutsideOfRadiusOfLastKnownPose map_clearing_radius_m_default
        (fun n : Nat => n + 1) 0 = 0 ∧
    map_clearing_radius_m_default ≤ 0 :=
  clearMap_noop_for_nonpositive_radius map_clearing_radius_m_default
    (fun n : Nat => n + 1) 0 (by norm_num [map_clearing_radius_m_default])

end NvbloxRos
